import Mathlib

/-!
Verification of `src/color-utils.js` (Immersive-Music-Player).

The file `color-utils.js` exports one function, `getDominantColors`,
which resolves a promise with a list of hex color strings extracted
from an image.  We embed it shallowly:

* the decoded 64×64 RGBA buffer (`ctx.getImageData(...).data`, a flat
  array traversed four bytes at a time) is modelled as a `List Pixel`,
  one `Pixel` per group of four bytes, each channel a `Nat` in `[0,255]`
  as produced by a `Uint8ClampedArray`;
* the JS object `colorCounts` (string keys `"qr,qg,qb"`, enumerated by
  `Object.entries` in insertion order; the key string round-trips to the
  triple via `split(',').map(Number)`) is modelled as an insertion-order
  association list keyed by the quantized triple;
* `Array.prototype.sort` with comparator `(a, b) => b[1] - a[1]` is a
  stable descending-by-count sort (stability is mandated by the JS
  spec); we model it with a stable insertion sort;
* `Math.round(c / 24) * 24` for a natural channel `c` equals
  `((c + 12) / 24) * 24` in natural-number arithmetic: JS `Math.round`
  rounds half-way cases up, ties `c/24 = k + 1/2` occur exactly at
  `c = 24k + 12` where the double `c/24` is exact, and away from ties
  the double is far closer to the real value than `1/48`;
* the promise, its environment (missing element, empty `src`,
  `complete` flag, `onload`/`onerror`, `drawImage` throwing, any other
  throw inside the outer `try`) are modelled by explicit data
  (`ImageElement`, `LoadBehavior`, `ExtractOutcome`); `resolve`/`reject`
  become constructors of `PromiseResult`.  `reject` is never called by
  the source, and every path calls `resolve`.
-/

namespace ColorUtils

/-- One sampled RGBA pixel: four consecutive entries of the flat
`imageData` buffer (`imageData[i] .. imageData[i+3]`). -/
structure Pixel where
  r : Nat
  g : Nat
  b : Nat
  a : Nat
deriving DecidableEq

/-- A quantized color bucket key `(qr, qg, qb)`: the JS string key
`` `${qr},${qg},${qb}` `` round-trips to this triple. -/
abbrev Bucket := Nat × Nat × Nat

/-- `const fallbackColors = ['#1a1a1a', '#2a2a2a', '#3a3a3a', '#000000'];` -/
def fallbackColors : List String := ["#1a1a1a", "#2a2a2a", "#3a3a3a", "#000000"]

/-- `Math.round(c / 24) * 24` on a natural channel value (see header note). -/
def quantize (c : Nat) : Nat := ((c + 12) / 24) * 24

/-- The bucket key built at `const key = ...`: each channel quantized
independently. -/
def quantKey (p : Pixel) : Bucket := (quantize p.r, quantize p.g, quantize p.b)

/-- `colorCounts[key] = (colorCounts[key] || 0) + 1;` on the
insertion-order association list: increment an existing key in place,
or append a fresh key with count 1. -/
def bump (counts : List (Bucket × Nat)) (k : Bucket) : List (Bucket × Nat) :=
  match counts with
  | [] => [(k, 1)]
  | (k', n) :: rest => if k' = k then (k', n + 1) :: rest else (k', n) :: bump rest k

/-- The counting loop
`for (let i = 0; i < imageData.length; i += 4) { ... if (a < 128) continue; ... }`:
left fold over the pixels, skipping those with `a < 128`. -/
def countColors (pixels : List Pixel) : List (Bucket × Nat) :=
  pixels.foldl (fun counts p => if p.a < 128 then counts else bump counts (quantKey p)) []

/-- JS object lookup `colorCounts[key] || 0` on the association list. -/
def getCount (counts : List (Bucket × Nat)) (k : Bucket) : Nat :=
  match counts with
  | [] => 0
  | (k', n) :: rest => if k' = k then n else getCount rest k

/-- A color candidate `{ r, g, b, count }` built from an entry of
`colorCounts`. -/
structure Candidate where
  r : Nat
  g : Nat
  b : Nat
  count : Nat
deriving DecidableEq

/-- One insertion step of the stable descending sort modelling
`.sort((a, b) => b[1] - a[1])`: an entry is placed before the first
entry with a count `≤` its own, so entries with equal counts keep
their enumeration (insertion) order. -/
def insertByCountDesc (e : Bucket × Nat) : List (Bucket × Nat) → List (Bucket × Nat)
  | [] => [e]
  | f :: fs => if e.2 < f.2 then f :: insertByCountDesc e fs else e :: f :: fs

/-- Stable sort of the `Object.entries(colorCounts)` list, descending
by count (the second component). -/
def sortByCountDesc : List (Bucket × Nat) → List (Bucket × Nat)
  | [] => []
  | e :: es => insertByCountDesc e (sortByCountDesc es)

/-- `.map(entry => { const [r, g, b] = entry[0].split(',').map(Number);
return { r, g, b, count: entry[1] }; })` -/
def toCandidate (e : Bucket × Nat) : Candidate := ⟨e.1.1, e.1.2.1, e.1.2.2, e.2⟩

/-- `const sortedColors = Object.entries(colorCounts).sort(...).map(...)`. -/
def sortedColors (counts : List (Bucket × Nat)) : List Candidate :=
  (sortByCountDesc counts).map toCandidate

/-- `const dist = Math.abs(color.r - existing.r) + Math.abs(color.g - existing.g)
+ Math.abs(color.b - existing.b);` -/
def distOf (c e : Candidate) : Nat :=
  ((c.r : Int) - (e.r : Int)).natAbs
    + ((c.g : Int) - (e.g : Int)).natAbs
    + ((c.b : Int) - (e.b : Int)).natAbs

/-- The inner loop computing `isDistinct`: `color` is distinct unless
some already-selected `existing` satisfies `dist < 60`. -/
def isDistinctFrom (c : Candidate) (selected : List Candidate) : Bool :=
  selected.all (fun e => decide (60 ≤ distOf c e))

/-- The selection loop
`for (const color of sortedColors) { if (finalColors.length >= maxColors) break; ... }`,
with `acc` playing the role of the mutable `finalColors` array. -/
def selectLoop (maxColors : Nat) : List Candidate → List Candidate → List Candidate
  | [], acc => acc
  | c :: cs, acc =>
    if maxColors ≤ acc.length then acc
    else if isDistinctFrom c acc then selectLoop maxColors cs (acc ++ [c])
    else selectLoop maxColors cs acc

/-- The whole distinct-filtering pass starting from an empty
`finalColors`. -/
def selectDistinct (maxColors : Nat) (sorted : List Candidate) : List Candidate :=
  selectLoop maxColors sorted []

/-- The padding color `{ r: 20, g: 20, b: 20 }` pushed by the fill loop
(the JS object has no `count` field; only `r`, `g`, `b` are read
afterwards, so we fix `count := 0`). -/
def gray : Candidate := ⟨20, 20, 20, 0⟩

/-- `while (finalColors.length < maxColors) { ... finalColors.push({ r: 20, g: 20, b: 20 }); }` —
both branches of the inner `if` push the same gray object, so the loop
appends `maxColors - length` copies of `gray`. -/
def padGray (maxColors : Nat) (colors : List Candidate) : List Candidate :=
  colors ++ List.replicate (maxColors - colors.length) gray

/-- `Math.min(255, Math.max(0, x))` (channel values are naturals here,
so `Math.max(0, x) = x`). -/
def clampChannel (x : Nat) : Nat := min 255 (max 0 x)

/-- Lowercase hexadecimal digit character for `n ≤ 15`
(`'0'..'9'` for `n < 10`, `'a'..'f'` otherwise). -/
def hexDigitChar (n : Nat) : Char :=
  if n < 10 then Char.ofNat (48 + n) else Char.ofNat (87 + n)

/-- `x.toString(16)` for `x ≤ 255`: one digit below 16, two digits
otherwise, no leading zeros. -/
def natToHexString (x : Nat) : String :=
  if x < 16 then String.mk [hexDigitChar x]
  else String.mk [hexDigitChar (x / 16), hexDigitChar (x % 16)]

/-- `return hex.length === 1 ? '0' + hex : hex;` -/
def padHex (s : String) : String := if s.length = 1 then "0" ++ s else s

/-- One element of `[r, g, b].map(x => ...)` in `rgbToHex`. -/
def rgbToHexChannel (x : Nat) : String := padHex (natToHexString (clampChannel x))

/-- `const rgbToHex = (r, g, b) => '#' + [r, g, b].map(...).join('');` -/
def rgbToHex (r g b : Nat) : String :=
  "#" ++ rgbToHexChannel r ++ rgbToHexChannel g ++ rgbToHexChannel b

/-- The successful body of `extract()` after `getImageData` returned a
buffer: count, sort, select, pad, encode; the value passed to
`resolve(hexColors)`. -/
def extractFromPixels (pixels : List Pixel) (maxColors : Nat) : List String :=
  let sorted := sortedColors (countColors pixels)
  let finalColors := padGray maxColors (selectDistinct maxColors sorted)
  finalColors.map (fun c => rgbToHex c.r c.g c.b)

/-- Outcome of a settled promise: the source calls `resolve` on every
path and never calls `reject`. -/
inductive PromiseResult (α : Type) where
  | resolved (value : α)
  | rejected
deriving DecidableEq

/-- What happens once `extract()` runs: `ctx.drawImage` throws (inner
`try`/`catch`, e.g. a CORS taint), any other statement inside the outer
`try` throws (e.g. `getImageData`, or a fault raised during counting,
sorting, selecting or encoding), or the buffer is sampled successfully. -/
inductive ExtractOutcome where
  | drawFault
  | processingFault
  | pixels (data : List Pixel)
deriving DecidableEq

/-- Load state of the image element: `complete` is already true, or the
pending load later fires `onload`, or it fires `onerror`. -/
inductive LoadBehavior where
  | complete
  | firesLoad
  | firesError
deriving DecidableEq

/-- The `imageElement` argument: its `src` property (`none` when the
property is absent, `some ""` when it is the empty string), its load
state, and what happens if `extract()` runs on it. -/
structure ImageElement where
  src : Option String
  load : LoadBehavior
  outcome : ExtractOutcome
deriving DecidableEq

/-- The `extract` closure: the inner `catch` resolves the fallback on a
draw failure, the outer `catch` resolves the fallback on any other
throw, and otherwise the computed `hexColors` are resolved. -/
def runExtract (el : ImageElement) (maxColors : Nat) : PromiseResult (List String) :=
  match el.outcome with
  | ExtractOutcome.drawFault => PromiseResult.resolved fallbackColors
  | ExtractOutcome.processingFault => PromiseResult.resolved fallbackColors
  | ExtractOutcome.pixels data => PromiseResult.resolved (extractFromPixels data maxColors)

/-- `getDominantColors(imageElement, maxColors)`: the guard
`if (!imageElement || !imageElement.src || imageElement.src === '')`
(for a string-valued `src`, `!imageElement.src` holds exactly when the
string is empty, so the last two tests coincide), then the
`complete` / `onload` / `onerror` dispatch. -/
def getDominantColors (img : Option ImageElement) (maxColors : Nat) :
    PromiseResult (List String) :=
  match img with
  | none => PromiseResult.resolved fallbackColors
  | some el =>
    match el.src with
    | none => PromiseResult.resolved fallbackColors
    | some s =>
      if s = "" then PromiseResult.resolved fallbackColors
      else
        match el.load with
        | LoadBehavior.complete => runExtract el maxColors
        | LoadBehavior.firesLoad => runExtract el maxColors
        | LoadBehavior.firesError => PromiseResult.resolved fallbackColors

/-- Spec predicate: the character is a lowercase hexadecimal digit
(`[0-9a-f]`). -/
def isHexDigitChar (ch : Char) : Bool :=
  (48 ≤ ch.toNat && ch.toNat ≤ 57) || (97 ≤ ch.toNat && ch.toNat ≤ 102)

/-- Spec predicate: the string matches `^#[0-9a-f]{6}$`. -/
def isHexColor (s : String) : Bool :=
  match s.data with
  | c :: rest => c == '#' && rest.length == 6 && rest.all isHexDigitChar
  | [] => false

/-! ### Counting lemmas -/

theorem getCount_bump (counts : List (Bucket × Nat)) (k j : Bucket) :
    getCount (bump counts k) j = getCount counts j + (if k = j then 1 else 0) := by
  induction counts with
  | nil => simp [bump, getCount]
  | cons e rest ih =>
    obtain ⟨k', n⟩ := e
    by_cases hk : k' = k
    · subst hk
      by_cases hj : k' = j <;> simp [bump, getCount, hj]
    · by_cases hj : k' = j
      · subst hj
        have hkj : ¬ k = k' := fun h => hk h.symm
        simp [bump, getCount, hk, hkj]
      · simp [bump, getCount, hk, hj, ih]

theorem getCount_countColors_aux (pixels : List Pixel) (acc : List (Bucket × Nat))
    (k : Bucket) :
    getCount
        (pixels.foldl
          (fun counts p => if p.a < 128 then counts else bump counts (quantKey p)) acc) k
      = getCount acc k + pixels.countP (fun p => decide (128 ≤ p.a ∧ quantKey p = k)) := by
  induction pixels generalizing acc with
  | nil => simp
  | cons p ps ih =>
    simp only [List.foldl_cons, List.countP_cons]
    rw [ih]
    by_cases ha : p.a < 128
    · have hpred : ¬ (128 ≤ p.a ∧ quantKey p = k) := by omega
      simp [ha, hpred]
    · by_cases hk : quantKey p = k
      · have hpred : (128 ≤ p.a ∧ quantKey p = k) := ⟨by omega, hk⟩
        simp [ha, hpred, getCount_bump, hk]
        omega
      · have hpred : ¬ (128 ≤ p.a ∧ quantKey p = k) := fun h => hk h.2
        simp [ha, hpred, getCount_bump, hk]

theorem getCount_countColors (pixels : List Pixel) (k : Bucket) :
    getCount (countColors pixels) k
      = pixels.countP (fun p => decide (128 ≤ p.a ∧ quantKey p = k)) := by
  simpa [getCount] using getCount_countColors_aux pixels [] k

/-! ### Selection lemmas -/

theorem natAbs_sub_swap (a b : Int) : (a - b).natAbs = (b - a).natAbs := by
  rw [← Int.natAbs_neg (a - b), neg_sub]

theorem distOf_comm (c e : Candidate) : distOf c e = distOf e c := by
  unfold distOf
  rw [natAbs_sub_swap (c.r : Int) (e.r : Int),
      natAbs_sub_swap (c.g : Int) (e.g : Int),
      natAbs_sub_swap (c.b : Int) (e.b : Int)]

theorem isDistinctFrom_spec (c : Candidate) (sel : List Candidate) :
    isDistinctFrom c sel = true ↔ ∀ e ∈ sel, 60 ≤ distOf c e := by
  simp [isDistinctFrom, List.all_eq_true]

theorem isDistinctFrom_false (c : Candidate) (sel : List Candidate)
    (h : isDistinctFrom c sel = false) : ∃ e ∈ sel, distOf c e < 60 := by
  have h' : ¬ (isDistinctFrom c sel = true) := by simp [h]
  rw [isDistinctFrom_spec] at h'
  push_neg at h'
  obtain ⟨e, he, hlt⟩ := h'
  exact ⟨e, he, by omega⟩

theorem selectLoop_pairwise (maxColors : Nat) (cs acc : List Candidate)
    (h : acc.Pairwise (fun x y => 60 ≤ distOf x y)) :
    (selectLoop maxColors cs acc).Pairwise (fun x y => 60 ≤ distOf x y) := by
  induction cs generalizing acc with
  | nil => simpa [selectLoop] using h
  | cons c cs ih =>
    by_cases hlen : maxColors ≤ acc.length
    · simpa [selectLoop, hlen] using h
    · by_cases hd : isDistinctFrom c acc = true
      · simp only [selectLoop, if_neg hlen, hd, if_pos]
        apply ih
        rw [List.pairwise_append]
        refine ⟨h, by simp, ?_⟩
        intro e he b hb
        rw [List.mem_singleton] at hb
        rw [hb, distOf_comm]
        exact (isDistinctFrom_spec c acc).mp hd e he
      · have hd' : isDistinctFrom c acc = false := by
          cases hb : isDistinctFrom c acc
          · rfl
          · exact absurd hb hd
        simp only [selectLoop, if_neg hlen, hd', Bool.false_eq_true, if_neg, not_false_iff]
        exact ih acc h

theorem selectLoop_length (maxColors : Nat) (cs acc : List Candidate)
    (h : acc.length ≤ maxColors) :
    (selectLoop maxColors cs acc).length ≤ maxColors := by
  induction cs generalizing acc with
  | nil => simpa [selectLoop] using h
  | cons c cs ih =>
    by_cases hlen : maxColors ≤ acc.length
    · simpa [selectLoop, hlen] using h
    · by_cases hd : isDistinctFrom c acc = true
      · simp only [selectLoop, if_neg hlen, hd, if_pos]
        apply ih
        simp only [List.length_append, List.length_singleton]
        omega
      · have hd' : isDistinctFrom c acc = false := by
          cases hb : isDistinctFrom c acc
          · rfl
          · exact absurd hb hd
        simp only [selectLoop, if_neg hlen, hd', Bool.false_eq_true, if_neg, not_false_iff]
        exact ih acc h

theorem selectLoop_eq_append (maxColors : Nat) (cs acc : List Candidate) :
    ∃ s, selectLoop maxColors cs acc = acc ++ s ∧ s.Sublist cs := by
  induction cs generalizing acc with
  | nil => exact ⟨[], by simp [selectLoop]⟩
  | cons c cs ih =>
    by_cases hlen : maxColors ≤ acc.length
    · exact ⟨[], by simp [selectLoop, hlen], List.nil_sublist _⟩
    · by_cases hd : isDistinctFrom c acc = true
      · obtain ⟨s, hs, hsub⟩ := ih (acc ++ [c])
        refine ⟨c :: s, ?_, hsub.cons₂ c⟩
        simp only [selectLoop, if_neg hlen, hd, if_pos]
        rw [hs, List.append_assoc]
        rfl
      · have hd' : isDistinctFrom c acc = false := by
          cases hb : isDistinctFrom c acc
          · rfl
          · exact absurd hb hd
        obtain ⟨s, hs, hsub⟩ := ih acc
        refine ⟨s, ?_, hsub.cons c⟩
        simpa only [selectLoop, if_neg hlen, hd', Bool.false_eq_true, if_neg,
          not_false_iff] using hs

theorem mem_selectLoop_of_mem_acc (maxColors : Nat) (cs acc : List Candidate)
    (x : Candidate) (hx : x ∈ acc) : x ∈ selectLoop maxColors cs acc := by
  obtain ⟨s, hs, _⟩ := selectLoop_eq_append maxColors cs acc
  rw [hs]
  exact List.mem_append_left s hx

theorem selectLoop_complete (maxColors : Nat) (cs acc : List Candidate)
    (hres : (selectLoop maxColors cs acc).length < maxColors) :
    ∀ c ∈ cs, c ∉ selectLoop maxColors cs acc →
      ∃ e ∈ selectLoop maxColors cs acc, distOf c e < 60 := by
  induction cs generalizing acc with
  | nil =>
    intro c hc
    simp at hc
  | cons c' cs ih =>
    intro c hc hnot
    by_cases hlen : maxColors ≤ acc.length
    · rw [show selectLoop maxColors (c' :: cs) acc = acc by
        simp [selectLoop, hlen]] at hres
      omega
    · by_cases hd : isDistinctFrom c' acc = true
      · have heq : selectLoop maxColors (c' :: cs) acc
            = selectLoop maxColors cs (acc ++ [c']) := by
          simp only [selectLoop, if_neg hlen, hd, if_pos]
        rw [heq] at hres hnot ⊢
        rcases List.mem_cons.mp hc with hcc | hc
        · refine absurd (mem_selectLoop_of_mem_acc maxColors cs (acc ++ [c']) c ?_) hnot
          rw [hcc]
          exact List.mem_append_right acc (List.mem_singleton.mpr rfl)
        · exact ih (acc ++ [c']) hres c hc hnot
      · have hd' : isDistinctFrom c' acc = false := by
          cases hb : isDistinctFrom c' acc
          · rfl
          · exact absurd hb hd
        have heq : selectLoop maxColors (c' :: cs) acc
            = selectLoop maxColors cs acc := by
          simp only [selectLoop, if_neg hlen, hd', Bool.false_eq_true, if_neg,
            not_false_iff]
        rw [heq] at hres hnot ⊢
        rcases List.mem_cons.mp hc with hcc | hc
        · obtain ⟨e, he, hlt⟩ := isDistinctFrom_false c' acc hd'
          refine ⟨e, mem_selectLoop_of_mem_acc maxColors cs acc e he, ?_⟩
          rw [hcc]
          exact hlt
        · exact ih acc hres c hc hnot

/-! ### Sorting lemmas -/

theorem mem_insertByCountDesc (e x : Bucket × Nat) (l : List (Bucket × Nat)) :
    x ∈ insertByCountDesc e l ↔ x = e ∨ x ∈ l := by
  induction l with
  | nil => simp [insertByCountDesc]
  | cons f fs ih =>
    simp only [insertByCountDesc]
    split
    · simp only [List.mem_cons, ih]
      tauto
    · simp only [List.mem_cons]

theorem pairwise_insertByCountDesc (e : Bucket × Nat) (l : List (Bucket × Nat))
    (h : l.Pairwise (fun a b => b.2 ≤ a.2)) :
    (insertByCountDesc e l).Pairwise (fun a b => b.2 ≤ a.2) := by
  induction l with
  | nil => simp [insertByCountDesc]
  | cons f fs ih =>
    rw [List.pairwise_cons] at h
    obtain ⟨hf, hfs⟩ := h
    simp only [insertByCountDesc]
    split
    · rename_i hlt
      rw [List.pairwise_cons]
      constructor
      · intro x hx
        rcases (mem_insertByCountDesc e x fs).mp hx with hxe | hxfs
        · rw [hxe]
          omega
        · exact hf x hxfs
      · exact ih hfs
    · rename_i hge
      rw [List.pairwise_cons]
      constructor
      · intro x hx
        rcases List.mem_cons.mp hx with hxf | hxfs
        · rw [hxf]
          omega
        · have := hf x hxfs
          omega
      · exact List.pairwise_cons.mpr ⟨hf, hfs⟩

theorem pairwise_sortByCountDesc (l : List (Bucket × Nat)) :
    (sortByCountDesc l).Pairwise (fun a b => b.2 ≤ a.2) := by
  induction l with
  | nil => simp [sortByCountDesc]
  | cons e es ih => exact pairwise_insertByCountDesc e _ ih

theorem perm_insertByCountDesc (e : Bucket × Nat) (l : List (Bucket × Nat)) :
    List.Perm (insertByCountDesc e l) (e :: l) := by
  induction l with
  | nil => simp [insertByCountDesc]
  | cons f fs ih =>
    simp only [insertByCountDesc]
    split
    · exact ((ih.cons f).trans (List.Perm.swap e f fs))
    · exact List.Perm.refl _

theorem perm_sortByCountDesc (l : List (Bucket × Nat)) :
    List.Perm (sortByCountDesc l) l := by
  induction l with
  | nil => exact List.Perm.refl _
  | cons e es ih =>
    exact (perm_insertByCountDesc e (sortByCountDesc es)).trans (ih.cons e)

theorem pairwise_sortedColors (counts : List (Bucket × Nat)) :
    (sortedColors counts).Pairwise (fun a b => b.count ≤ a.count) := by
  unfold sortedColors
  rw [List.pairwise_map]
  exact pairwise_sortByCountDesc counts

/-! ### Padding, length and encoding lemmas -/

theorem padGray_length (m : Nat) (cs : List Candidate) (h : cs.length ≤ m) :
    (padGray m cs).length = m := by
  simp only [padGray, List.length_append, List.length_replicate]
  omega

theorem selectDistinct_length (m : Nat) (sorted : List Candidate) :
    (selectDistinct m sorted).length ≤ m :=
  selectLoop_length m sorted [] (by simp)

theorem extractFromPixels_length (pixels : List Pixel) (m : Nat) :
    (extractFromPixels pixels m).length = m := by
  unfold extractFromPixels
  simp only [List.length_map]
  exact padGray_length m _ (selectDistinct_length m _)

theorem data_append (s t : String) : (s ++ t).data = s.data ++ t.data := rfl

theorem isHexDigitChar_hexDigitChar (n : Nat) (h : n ≤ 15) :
    isHexDigitChar (hexDigitChar n) = true := by
  interval_cases n <;> decide

theorem rgbToHexChannel_data (x : Nat) :
    ∃ c₁ c₂, (rgbToHexChannel x).data = [c₁, c₂]
      ∧ isHexDigitChar c₁ = true ∧ isHexDigitChar c₂ = true := by
  have hy255 : clampChannel x ≤ 255 := by
    simp [clampChannel]
  by_cases h16 : clampChannel x < 16
  · refine ⟨'0', hexDigitChar (clampChannel x), ?_, by decide,
      isHexDigitChar_hexDigitChar _ (by omega)⟩
    simp [rgbToHexChannel, natToHexString, h16, padHex, String.length]
  · refine ⟨hexDigitChar (clampChannel x / 16), hexDigitChar (clampChannel x % 16), ?_,
      isHexDigitChar_hexDigitChar _ (by omega),
      isHexDigitChar_hexDigitChar _ (by omega)⟩
    simp [rgbToHexChannel, natToHexString, h16, padHex, String.length]

theorem isHexColor_rgbToHex (r g b : Nat) : isHexColor (rgbToHex r g b) = true := by
  obtain ⟨r1, r2, hr, hr1, hr2⟩ := rgbToHexChannel_data r
  obtain ⟨g1, g2, hg, hg1, hg2⟩ := rgbToHexChannel_data g
  obtain ⟨b1, b2, hb, hb1, hb2⟩ := rgbToHexChannel_data b
  have hdata : (rgbToHex r g b).data = '#' :: [r1, r2, g1, g2, b1, b2] := by
    simp [rgbToHex, data_append, hr, hg, hb]
  unfold isHexColor
  rw [hdata]
  simp [hr1, hr2, hg1, hg2, hb1, hb2]

/-! ### Promise-level case analysis -/

theorem getDominantColors_cases (img : Option ImageElement) (maxColors : Nat) :
    getDominantColors img maxColors = PromiseResult.resolved fallbackColors
    ∨ ∃ pixels, getDominantColors img maxColors
        = PromiseResult.resolved (extractFromPixels pixels maxColors) := by
  cases img with
  | none => exact Or.inl rfl
  | some el =>
    obtain ⟨src, load, outcome⟩ := el
    cases src with
    | none => exact Or.inl rfl
    | some s =>
      by_cases hs : s = ""
      · subst hs
        exact Or.inl rfl
      · cases load with
        | firesError =>
          exact Or.inl (by simp [getDominantColors, hs])
        | complete =>
          cases outcome with
          | drawFault => exact Or.inl (by simp [getDominantColors, runExtract, hs])
          | processingFault => exact Or.inl (by simp [getDominantColors, runExtract, hs])
          | pixels data =>
            exact Or.inr ⟨data, by simp [getDominantColors, runExtract, hs]⟩
        | firesLoad =>
          cases outcome with
          | drawFault => exact Or.inl (by simp [getDominantColors, runExtract, hs])
          | processingFault => exact Or.inl (by simp [getDominantColors, runExtract, hs])
          | pixels data =>
            exact Or.inr ⟨data, by simp [getDominantColors, runExtract, hs]⟩

/-! ### Claims -/

/-- Claim C1, counterexample: the claim asserts the resolved sequence has
length `maxColors` on every path, but with a missing `imageElement` and
`maxColors = 2` the promise resolves with the fixed 4-element fallback
palette, whose length is not 2. -/
theorem claimC1_counterexample :
    getDominantColors none 2 = PromiseResult.resolved fallbackColors
      ∧ fallbackColors.length ≠ 2 :=
  ⟨rfl, by decide⟩

/-- Claim C1, amended: on the successful extraction path the resolved
sequence has length exactly `maxColors`; every other path resolves with
the fixed fallback palette, whose length is 4 regardless of `maxColors`. -/
theorem claimC1_result_length (img : Option ImageElement) (maxColors : Nat) :
    (∀ pixels, (extractFromPixels pixels maxColors).length = maxColors)
    ∧ fallbackColors.length = 4
    ∧ (getDominantColors img maxColors = PromiseResult.resolved fallbackColors
        ∨ ∃ pixels, getDominantColors img maxColors
            = PromiseResult.resolved (extractFromPixels pixels maxColors)) :=
  ⟨fun pixels => extractFromPixels_length pixels maxColors, rfl,
    getDominantColors_cases img maxColors⟩

/-- Claim C2: on every resolution path, each string of the resolved
sequence matches `^#[0-9a-f]\x7b6\x7d$` (lowercase hex, zero-padded,
channels clamped to `[0,255]` before encoding). -/
theorem claimC2_hex_format (img : Option ImageElement) (maxColors : Nat)
    (l : List String)
    (h : getDominantColors img maxColors = PromiseResult.resolved l) :
    ∀ s ∈ l, isHexColor s = true := by
  rcases getDominantColors_cases img maxColors with hc | ⟨pixels, hc⟩
  · have hl : l = fallbackColors := by
      have h2 := h.symm.trans hc
      injection h2
    subst hl
    intro s hs
    simp only [fallbackColors, List.mem_cons, List.not_mem_nil, or_false] at hs
    rcases hs with rfl | rfl | rfl | rfl <;> decide
  · have hl : l = extractFromPixels pixels maxColors := by
      have h2 := h.symm.trans hc
      injection h2
    subst hl
    intro s hs
    simp only [extractFromPixels, List.mem_map] at hs
    obtain ⟨c, _, rfl⟩ := hs
    exact isHexColor_rgbToHex c.r c.g c.b

/-- Claim C2, witness: the first fallback entry is a well-formed hex
color string. -/
theorem claimC2_hex_format_witness : isHexColor "#1a1a1a" = true :=
  claimC2_hex_format none 4 fallbackColors rfl "#1a1a1a" (by simp [fallbackColors])

/-- Claim C3: the promise always resolves (the source never calls
`reject`), and a load-failure signal, a `drawImage` fault or any other
fault inside the `try` of `extract` resolves the fixed fallback palette. -/
theorem claimC3_never_rejects (img : Option ImageElement) (maxColors : Nat) :
    (∃ l, getDominantColors img maxColors = PromiseResult.resolved l)
    ∧ (∀ el, img = some el →
        el.load = LoadBehavior.firesError ∨ el.outcome = ExtractOutcome.drawFault
          ∨ el.outcome = ExtractOutcome.processingFault →
        getDominantColors img maxColors = PromiseResult.resolved fallbackColors) := by
  constructor
  · rcases getDominantColors_cases img maxColors with hc | ⟨pixels, hc⟩
    · exact ⟨fallbackColors, hc⟩
    · exact ⟨extractFromPixels pixels maxColors, hc⟩
  · rintro el rfl hfault
    obtain ⟨src, load, outcome⟩ := el
    cases src with
    | none => rfl
    | some s =>
      by_cases hs : s = ""
      · subst hs
        rfl
      · rcases hfault with hl | ho | ho
        · replace hl : load = LoadBehavior.firesError := hl
          subst hl
          simp [getDominantColors, hs]
        · replace ho : outcome = ExtractOutcome.drawFault := ho
          subst ho
          cases load <;> simp [getDominantColors, runExtract, hs]
        · replace ho : outcome = ExtractOutcome.processingFault := ho
          subst ho
          cases load <;> simp [getDominantColors, runExtract, hs]

/-- Claim C3, witness: an image whose pending load fires `onerror`
resolves with the fallback palette. -/
theorem claimC3_never_rejects_witness :
    getDominantColors
        (some ⟨some "cover.png", LoadBehavior.firesError, ExtractOutcome.pixels []⟩) 4
      = PromiseResult.resolved fallbackColors :=
  (claimC3_never_rejects
      (some ⟨some "cover.png", LoadBehavior.firesError, ExtractOutcome.pixels []⟩) 4).2
    ⟨some "cover.png", LoadBehavior.firesError, ExtractOutcome.pixels []⟩ rfl (Or.inl rfl)

/-- Claim C4: the greedy selection returns pairwise-distinct candidates
(Manhattan RGB distance `≥ 60`), considers the candidates in
descending-count order (the sorted list is descending and the selection
is a sublist of it), selects at most `maxColors`, and when it stops
short of `maxColors` every skipped candidate failed the distinctness
test against some selected one. -/
theorem claimC4_distinct_selection (counts : List (Bucket × Nat)) (maxColors : Nat) :
    (selectDistinct maxColors (sortedColors counts)).Pairwise
        (fun x y => 60 ≤ distOf x y)
    ∧ (selectDistinct maxColors (sortedColors counts)).length ≤ maxColors
    ∧ (selectDistinct maxColors (sortedColors counts)).Sublist (sortedColors counts)
    ∧ (sortedColors counts).Pairwise (fun a b => b.count ≤ a.count)
    ∧ ((selectDistinct maxColors (sortedColors counts)).length < maxColors →
        ∀ c ∈ sortedColors counts, c ∉ selectDistinct maxColors (sortedColors counts) →
          ∃ e ∈ selectDistinct maxColors (sortedColors counts), distOf c e < 60) := by
  refine ⟨selectLoop_pairwise maxColors (sortedColors counts) [] (by simp),
    selectDistinct_length maxColors (sortedColors counts), ?_,
    pairwise_sortedColors counts, ?_⟩
  · obtain ⟨s, hs, hsub⟩ := selectLoop_eq_append maxColors (sortedColors counts) []
    unfold selectDistinct
    rw [hs, List.nil_append]
    exact hsub
  · intro hres
    exact selectLoop_complete maxColors (sortedColors counts) [] hres

/-- Claim C4, witness: with buckets `(0,0,0)` (count 2) and `(24,0,0)`
(count 1) and `maxColors = 3`, the second candidate is skipped because
its distance to a selected candidate is below 60. -/
theorem claimC4_distinct_selection_witness :
    ∃ e ∈ selectDistinct 3 (sortedColors [((0, 0, 0), 2), ((24, 0, 0), 1)]),
      distOf (toCandidate ((24, 0, 0), 1)) e < 60 :=
  (claimC4_distinct_selection [((0, 0, 0), 2), ((24, 0, 0), 1)] 3).2.2.2.2
    (by decide) (toCandidate ((24, 0, 0), 1)) (by decide) (by decide)

/-- Claim C5: a sampled pixel contributes to a bucket count exactly when
its alpha is at least 128, a contributing pixel increments by one the
count of the bucket keyed by its componentwise quantization, and the
key quantizes each channel independently. -/
theorem claimC5_bucket_counting (pixels : List Pixel) (k : Bucket) :
    getCount (countColors pixels) k
      = pixels.countP (fun p => decide (128 ≤ p.a ∧ quantKey p = k))
    ∧ ∀ p : Pixel, quantKey p = (quantize p.r, quantize p.g, quantize p.b) :=
  ⟨getCount_countColors pixels k, fun _ => rfl⟩

/-- Claim C6: whenever the greedy selection yields fewer than
`maxColors` candidates the result is padded with `#141414` entries up to
`maxColors`, and a uniform opaque `(200,50,50)` image yields `#c03030`
followed only by `#141414`. -/
theorem claimC6_gray_padding (pixels : List Pixel) (maxColors : Nat)
    (h : (selectDistinct maxColors (sortedColors (countColors pixels))).length
      < maxColors) :
    extractFromPixels pixels maxColors
      = (selectDistinct maxColors (sortedColors (countColors pixels))).map
          (fun c => rgbToHex c.r c.g c.b)
        ++ List.replicate
            (maxColors
              - (selectDistinct maxColors (sortedColors (countColors pixels))).length)
            "#141414"
    ∧ extractFromPixels (List.replicate 3 ⟨200, 50, 50, 255⟩) 4
      = ["#c03030", "#141414", "#141414", "#141414"] := by
  constructor
  · simp only [extractFromPixels, padGray, List.map_append, List.map_replicate]
    congr 1
  · decide

/-- Claim C6, witness: the padding equation at a one-pixel uniform image
with `maxColors = 2`. -/
theorem claimC6_gray_padding_witness :
    extractFromPixels [⟨200, 50, 50, 255⟩] 2
      = (selectDistinct 2 (sortedColors (countColors [⟨200, 50, 50, 255⟩]))).map
          (fun c => rgbToHex c.r c.g c.b)
        ++ List.replicate
            (2 - (selectDistinct 2 (sortedColors (countColors [⟨200, 50, 50, 255⟩]))).length)
            "#141414" :=
  (claimC6_gray_padding [⟨200, 50, 50, 255⟩] 2 (by decide)).1

/-- Claim C7: quantization can exceed 255 (every channel in `[253,255]`
quantizes to 264), and hex encoding clamps each channel to `[0,255]`
before conversion, so the encoded channel value never exceeds 255. -/
theorem claimC7_quantize_overflow :
    (∀ c, 253 ≤ c → c ≤ 255 → quantize c = 264)
    ∧ (∃ c, c ≤ 255 ∧ 255 < quantize c)
    ∧ (∀ x, clampChannel x ≤ 255)
    ∧ (∀ r g b, rgbToHex r g b
        = rgbToHex (clampChannel r) (clampChannel g) (clampChannel b)) := by
  refine ⟨?_, ⟨255, by decide, by decide⟩, ?_, ?_⟩
  · intro c h1 h2
    interval_cases c <;> rfl
  · intro x
    simp [clampChannel]
  · intro r g b
    have hidem : ∀ x : Nat, clampChannel (clampChannel x) = clampChannel x := by
      intro x
      unfold clampChannel
      omega
    simp only [rgbToHex, rgbToHexChannel, hidem]

/-- Claim C7, witness: channel 253 quantizes to 264. -/
theorem claimC7_quantize_overflow_witness : quantize 253 = 264 :=
  claimC7_quantize_overflow.1 253 (by decide) (by decide)

/-- Claim C8: a missing `imageElement`, a missing `src` property or an
empty `src` string all resolve with the fixed 4-color fallback palette;
the result does not depend on the element's load state or sampling
outcome (they are arbitrary here), so no sampling is attempted. -/
theorem claimC8_missing_source (maxColors : Nat) (el : ImageElement) :
    getDominantColors none maxColors = PromiseResult.resolved fallbackColors
    ∧ fallbackColors = ["#1a1a1a", "#2a2a2a", "#3a3a3a", "#000000"]
    ∧ (el.src = none ∨ el.src = some "" →
        getDominantColors (some el) maxColors = PromiseResult.resolved fallbackColors) := by
  refine ⟨rfl, rfl, ?_⟩
  rintro (hsrc | hsrc) <;> simp [getDominantColors, hsrc]

/-- Claim C8, witness: an element with an empty `src` resolves with the
fallback palette even with a sampled buffer attached and `maxColors = 7`. -/
theorem claimC8_missing_source_witness :
    getDominantColors
        (some ⟨some "", LoadBehavior.complete, ExtractOutcome.pixels [⟨1, 2, 3, 255⟩]⟩) 7
      = PromiseResult.resolved fallbackColors :=
  (claimC8_missing_source 7
      ⟨some "", LoadBehavior.complete, ExtractOutcome.pixels [⟨1, 2, 3, 255⟩]⟩).2.2
    (Or.inr rfl)

/-- Claim C9: extraction is deterministic — two runs on the same sampled
RGBA buffer with the same `maxColors` produce identical hex sequences
(the embedding is a pure function of the buffer; in the source the
bucket table is enumerated in insertion order and the sort is stable,
so the run is a function of the buffer as well). -/
theorem claimC9_deterministic (p₁ p₂ : List Pixel) (m₁ m₂ : Nat)
    (hp : p₁ = p₂) (hm : m₁ = m₂) :
    extractFromPixels p₁ m₁ = extractFromPixels p₂ m₂ := by
  rw [hp, hm]

/-- Claim C9, witness: two runs on the same one-pixel buffer agree. -/
theorem claimC9_deterministic_witness :
    extractFromPixels [⟨200, 50, 50, 255⟩] 4 = extractFromPixels [⟨200, 50, 50, 255⟩] 4 :=
  claimC9_deterministic [⟨200, 50, 50, 255⟩] [⟨200, 50, 50, 255⟩] 4 4 rfl rfl

/-- Claim C10: with `maxColors = 0` a successful extraction resolves
with the empty sequence: the selection loop stops immediately, no gray
padding is added, and the fallback palette is not used. -/
theorem claimC10_zero_maxColors (pixels : List Pixel) (el : ImageElement) (s : String)
    (hsrc : el.src = some s) (hs : s ≠ "") (hload : el.load ≠ LoadBehavior.firesError)
    (hout : el.outcome = ExtractOutcome.pixels pixels) :
    extractFromPixels pixels 0 = []
    ∧ getDominantColors (some el) 0 = PromiseResult.resolved [] := by
  have hempty : extractFromPixels pixels 0 = [] := by
    unfold extractFromPixels selectDistinct padGray
    cases sortedColors (countColors pixels) with
    | nil => simp [selectLoop]
    | cons c cs => simp [selectLoop]
  refine ⟨hempty, ?_⟩
  obtain ⟨src, load, outcome⟩ := el
  replace hsrc : src = some s := hsrc
  replace hout : outcome = ExtractOutcome.pixels pixels := hout
  replace hload : load ≠ LoadBehavior.firesError := hload
  subst hsrc
  subst hout
  cases load with
  | firesError => exact absurd rfl hload
  | complete => simp [getDominantColors, runExtract, hs, hempty]
  | firesLoad => simp [getDominantColors, runExtract, hs, hempty]

/-- Claim C10, witness: a loaded one-pixel image with `maxColors = 0`
resolves with the empty sequence. -/
theorem claimC10_zero_maxColors_witness :
    extractFromPixels [⟨200, 50, 50, 255⟩] 0 = []
    ∧ getDominantColors
        (some ⟨some "cover.png", LoadBehavior.complete,
          ExtractOutcome.pixels [⟨200, 50, 50, 255⟩]⟩) 0
      = PromiseResult.resolved [] :=
  claimC10_zero_maxColors [⟨200, 50, 50, 255⟩]
    ⟨some "cover.png", LoadBehavior.complete, ExtractOutcome.pixels [⟨200, 50, 50, 255⟩]⟩
    "cover.png" rfl (by decide) (by decide) rfl

example : quantize 200 = 192 := by decide
example : quantize 252 = 264 := by decide
example : quantize 50 = 48 := by decide
example : rgbToHex 192 48 48 = "#c03030" := by decide
example : rgbToHex 20 20 20 = "#141414" := by decide
example : extractFromPixels [⟨200, 50, 50, 255⟩] 2 = ["#c03030", "#141414"] := by decide
example : isHexColor "#c03030" = true := by decide

end ColorUtils
